import Mathlib

/-!
Verification model of `examples/c/profile.c` (libbpf-bootstrap profiling
example).  The user-space side of the profiler is embedded shallowly:

* external library calls (blazesym symbolization, perf_event_open, libbpf
  skeleton/ring-buffer operations, the online-CPU mask parser) are modelled
  as oracle parameters or `World` fields recording the outcome each call
  would produce;
* `printf`/`fprintf` output is modelled as structured lines (`PrintLine`)
  and diagnostics (`Diag`) — one `PrintLine` value per line of text the C
  code emits, carrying exactly the data items that are interpolated into
  the format string;
* machine integers (`int`, `pid_t`, `__s32`, `long`) are modelled as `Int`
  (no arithmetic in the program approaches the 32/64-bit overflow
  boundaries), addresses (`__u64`, `uintptr_t`) as `Nat`.

Definitions keep the names of the C functions they embed
(`print_frame`, `show_stack_trace`, `event_handler`, `main` -> `main_run`).
-/

/-- Source-location information attached to a symbolized frame
(`blaze_symbolize_code_info`): `dir` and `file` are nullable C strings,
`line` is a `u32` line number. -/
structure blaze_symbolize_code_info where
  dir : Option String
  file : Option String
  line : Nat
deriving DecidableEq

/-- One inlined function attached to an out-of-line frame
(`blaze_symbolize_inlined_fn`).  The C code prints `name` directly, so it
is modelled as a (non-null) string. -/
structure blaze_symbolize_inlined_fn where
  name : String
  code_info : blaze_symbolize_code_info
deriving DecidableEq

/-- One per-address symbolization result (`blaze_sym`).  `name == NULL`
(modelled as `Option.none`) is the "no symbol" state the caller tests for. -/
structure blaze_sym where
  name : Option String
  addr : Nat
  offset : Nat
  code_info : blaze_symbolize_code_info
  inlined : List blaze_symbolize_inlined_fn
deriving DecidableEq

/-- The result array of one whole symbolization call (`blaze_syms`):
`cnt` is the list length, `syms[i]` is list indexing. -/
abbrev blaze_syms := List blaze_sym

/-- Address-space descriptor selected by `show_stack_trace`:
`blaze_symbolize_src_kernel` or `blaze_symbolize_src_process` with a pid. -/
inductive AddrSpace where
  | kernel : AddrSpace
  | process (pid : Int) : AddrSpace
deriving DecidableEq

/-- One invocation of the blazesym symbolizer: which address-space source
structure was passed and which raw addresses. -/
structure SymCall where
  space : AddrSpace
  addrs : List Nat
deriving DecidableEq

/-- Oracle for the external symbolizer: the result the blazesym call
(`blaze_symbolize_kernel_abs_addrs` / `blaze_symbolize_process_abs_addrs`)
returns for a given source descriptor and address list.  `Option.none`
models a `NULL` return (whole-call failure). -/
abbrev Symbolizer := AddrSpace → List Nat → Option blaze_syms

/-- Source location as actually printed by `print_frame`: the C code
prints `dir/file:line` when both `dir` and `file` are non-null,
`file:line` when only `file` is, and nothing otherwise. -/
inductive SrcLoc where
  | dirFile (dir file : String) (line : Nat) : SrcLoc
  | fileOnly (file : String) (line : Nat) : SrcLoc
  | unknown : SrcLoc
deriving DecidableEq

/-- One line of standard output.  Each constructor corresponds to one
`printf`-produced line of `profile.c` and carries the interpolated data:
`comm` is the `COMM: %s (pid=%d) @ CPU %d` header, `text` a fixed string
line (`Kernel:`, `No Kernel Stack`, ..., and the empty separator line),
`symbolizeFailed` the `failed to symbolize addresses: ...` diagnostic
(its `blaze_err_str` payload is external state and not modelled),
`noSymbol` the `%016llx: <no-symbol>` line, `frame` the out-of-line frame
line `%016lx: %s @ 0x%lx+0x%lx [src]`, and `inlined` the
`%16s  %s [@ src] [inlined]` line, which carries no address/offset and
ends in the `[inlined]` marker. -/
inductive PrintLine where
  | comm (c : String) (pid : Int) (cpu : Nat) : PrintLine
  | text (s : String) : PrintLine
  | symbolizeFailed : PrintLine
  | noSymbol (addr : Nat) : PrintLine
  | frame (input_addr : Nat) (name : String) (addr offset : Nat) (src : SrcLoc) : PrintLine
  | inlined (name : String) (src : SrcLoc) : PrintLine
deriving DecidableEq

/-- The source-location part of the two `printf` chains in `print_frame`:
both branch on `code_info`, `code_info->dir`, `code_info->file` in the
same way. -/
def srcOf : Option blaze_symbolize_code_info → SrcLoc
  | Option.none => SrcLoc.unknown
  | Option.some ci =>
    match ci.dir, ci.file with
    | Option.some d, Option.some f => SrcLoc.dirFile d f ci.line
    | Option.none, Option.some f => SrcLoc.fileOnly f ci.line
    | _, Option.none => SrcLoc.unknown

/-- Embedding of `print_frame` (profile.c:38-60).  It produces exactly one
output line: the out-of-line form when `input_addr != 0`, the
inlined-marked form (no address, no offset) when `input_addr == 0`. -/
def print_frame (name : String) (input_addr addr offset : Nat)
    (code_info : Option blaze_symbolize_code_info) : PrintLine :=
  if input_addr ≠ 0 then
    PrintLine.frame input_addr name addr offset (srcOf code_info)
  else
    PrintLine.inlined name (srcOf code_info)

/-- Body of one iteration of the `for (i = 0; i < stack_sz; i++)` loop of
`show_stack_trace` (profile.c:91-104) at index `i` with address `a`:
when `syms->cnt <= i` or `syms->syms[i].name == NULL` (the guarded access
is embedded as total `List.get?` indexing) a `<no-symbol>` line is
printed; otherwise the out-of-line frame line followed by one line per
entry of the `inlined` array, in array order. -/
def frame_group (syms : blaze_syms) (i : Nat) (a : Nat) : List PrintLine :=
  match syms[i]? with
  | Option.none => [PrintLine.noSymbol a]
  | Option.some s =>
    match s.name with
    | Option.none => [PrintLine.noSymbol a]
    | Option.some nm =>
      print_frame nm a s.addr s.offset (Option.some s.code_info) ::
        s.inlined.map (fun f => print_frame f.name 0 0 0 (Option.some f.code_info))

/-- The whole per-address loop of `show_stack_trace`, with `i` the loop
index corresponding to the head of the remaining `stack` suffix. -/
def trace_lines (syms : blaze_syms) : Nat → List Nat → List PrintLine
  | _, [] => []
  | i, a :: rest => frame_group syms i a ++ trace_lines syms (i + 1) rest

/-- The address-space selection of `show_stack_trace` (profile.c:71-84):
`if (pid)` chooses the process source, else the kernel source. -/
def spaceFor (pid : Int) : AddrSpace :=
  if pid ≠ 0 then AddrSpace.process pid else AddrSpace.kernel

/-- Embedding of `show_stack_trace` (profile.c:62-107).  Returns the list
of symbolizer invocations it performs and the lines it prints: on a NULL
result (`Option.none`) it prints the failure diagnostic and returns;
otherwise it prints the per-address loop output.  (`blaze_syms_free` is a
resource release with no observable output and is not modelled.) -/
def show_stack_trace (symbolize : Symbolizer) (stack : List Nat) (pid : Int) :
    List SymCall × List PrintLine :=
  let space := spaceFor pid
  match symbolize space stack with
  | Option.none => ([⟨space, stack⟩], [PrintLine.symbolizeFailed])
  | Option.some syms => ([⟨space, stack⟩], trace_lines syms 0 stack)

/-- The Event Record (`struct stacktrace_event` of profile.h, which is not
part of this repository snapshot).  Modelled from the spec: §3 "Event
Record" (pid, command name, execution unit, kernel frame list, user frame
list) together with the consumer's own field accesses in profile.c:
`kstack_sz`/`ustack_sz` are the signed byte sizes of the captured stacks
(the consumer divides them by `sizeof(__u64)`), `kstack`/`ustack` the raw
address arrays. -/
structure stacktrace_event where
  pid : Int
  cpu_id : Nat
  comm : String
  kstack_sz : Int
  ustack_sz : Int
  kstack : List Nat
  ustack : List Nat
deriving DecidableEq

/-- Embedding of `event_handler` (profile.c:110-135).  Returns the C
return value, the symbolizer invocations performed (via
`show_stack_trace`) and the stdout lines, in order. -/
def event_handler (symbolize : Symbolizer) (ev : stacktrace_event) :
    Int × List SymCall × List PrintLine :=
  if ev.kstack_sz ≤ 0 ∧ ev.ustack_sz ≤ 0 then
    (1, [], [])
  else
    let kpart :=
      if 0 < ev.kstack_sz then
        let r := show_stack_trace symbolize (ev.kstack.take (ev.kstack_sz.toNat / 8)) 0
        (r.1, PrintLine.text ("Kernel:") :: r.2)
      else
        ([], [PrintLine.text ("No Kernel Stack")])
    let upart :=
      if 0 < ev.ustack_sz then
        let r := show_stack_trace symbolize (ev.ustack.take (ev.ustack_sz.toNat / 8)) ev.pid
        (r.1, PrintLine.text ("Userspace:") :: r.2)
      else
        ([], [PrintLine.text ("No Userspace Stack")])
    (0, kpart.1 ++ upart.1,
      PrintLine.comm ev.comm ev.pid ev.cpu_id :: (kpart.2 ++ upart.2) ++ [PrintLine.text ("")])

/-- Classifier for the Reporter's out-of-line lines: the `<no-symbol>`
line and the full frame line are printed for an input address itself; the
`inlined`-marked line is not (and header/diagnostic lines are neither). -/
def isOutOfLine : PrintLine → Bool
  | PrintLine.noSymbol _ => true
  | PrintLine.frame _ _ _ _ _ => true
  | _ => false

/-- Command-line options as delivered by the `getopt_long` calls of the
option loop (profile.c:164-180).  Argument parsing itself (getopt, atoi)
is external libc code; `f v` means `getopt_long` returned `'f'` and
`atoi(optarg)` evaluated to `v`, `s` is `--sw-event`, `h` is `-h`, and
`unknown` is any unrecognized option (getopt's `'?'`, the `default`
case). -/
inductive CliOpt where
  | f (v : Int) : CliOpt
  | s : CliOpt
  | h : CliOpt
  | unknown : CliOpt
deriving DecidableEq

/-- The `while ((argp = getopt_long(...)) != -1)` loop of `main`
(profile.c:164-180), folded over the delivered options with the current
`freq` and `sw_event` values (initially `1` and `0`):  `-f` stores
`atoi(optarg)` clamped to at least 1, `--sw-event` sets the flag, and
`-h` or an unknown option prints usage and returns 1 (`Option.none`). -/
def getopt_loop : List CliOpt → Int → Bool → Option (Int × Bool)
  | [], freq, sw_event => Option.some (freq, sw_event)
  | CliOpt.f v :: rest, _, sw_event =>
      getopt_loop rest (if v < 1 then 1 else v) sw_event
  | CliOpt.s :: rest, freq, _ => getopt_loop rest freq true
  | CliOpt.h :: _, _, _ => Option.none
  | CliOpt.unknown :: _, _, _ => Option.none

/-- `ENOENT` (the errno value `perf_event_open` reports for an
unsupported/absent counter). -/
def ENOENT : Int := 2

/-- perf_event.h constants used by `main` (linux/perf_event.h). -/
def PERF_TYPE_HARDWARE : Nat := 0

def PERF_TYPE_SOFTWARE : Nat := 1

def PERF_COUNT_HW_CPU_CYCLES : Nat := 0

def PERF_COUNT_SW_CPU_CLOCK : Nat := 0

/-- The fields of `struct perf_event_attr` that `main` sets
(profile.c:223-228) after zeroing the struct: `freq = 1` selects
frequency-based (rather than period/count-based) sampling and
`sample_freq` is the target frequency. -/
structure PerfAttr where
  typ : Nat
  config : Nat
  sample_freq : Int
  freq : Nat
deriving DecidableEq

/-- Construction of the `perf_event_attr` value (profile.c:223-228). -/
def make_attr (sw_event : Bool) (f : Int) : PerfAttr :=
  { typ := if sw_event then PERF_TYPE_SOFTWARE else PERF_TYPE_HARDWARE
    config := if sw_event then PERF_COUNT_SW_CPU_CLOCK else PERF_COUNT_HW_CPU_CYCLES
    sample_freq := f
    freq := 1 }

/-- Stderr diagnostics `main` can print, one constructor per `fprintf`
site: the online-CPU-mask failure (with its error code), the
possible-CPU-count failure, skeleton and symbolizer failures, and the two
variants of the perf_event_open failure message — `perf_fail_hint` is the
message that additionally suggests `--sw-event` (printed when the mode is
hardware and `errno == ENOENT`), `perf_fail_plain` the one that does not.
(The ring-buffer-creation failure path prints nothing.) -/
inductive Diag where
  | cpu_mask_fail (e : Int) : Diag
  | num_cpus_fail : Diag
  | skel_fail : Diag
  | symbolizer_fail : Diag
  | perf_fail_hint : Diag
  | perf_fail_plain : Diag
deriving DecidableEq

/-- Which perf_event_open failure message is printed (profile.c:238-244). -/
def perf_diag (sw_event : Bool) (e : Int) : Diag :=
  if sw_event = false ∧ e = ENOENT then Diag.perf_fail_hint else Diag.perf_fail_plain

/-- Outcomes of the external calls one run of `main` performs, fixed up
front: the online-mask parse result (`Except.error e` models a nonzero
return of `parse_cpu_mask_file`, `Except.ok mask` a zero return with
`online_mask = mask` and `num_online_cpus = mask.length`), the
`libbpf_num_possible_cpus` result, whether skeleton / symbolizer /
ring-buffer creation succeed (NULL returns model failure), the fd or
negative failure that `perf_event_open` returns per CPU together with the
`errno` it leaves behind, whether `bpf_program__attach_perf_event`
succeeds per CPU, and the successive return values of
`ring_buffer__poll`.  (`malloc`/`calloc` of the two per-CPU tables are
assumed to succeed; the C code does not check them either.) -/
structure World where
  cpu_mask : Except Int (List Bool)
  num_cpus : Int
  skel_ok : Bool
  symbolizer_ok : Bool
  ringbuf_ok : Bool
  perf_open : Nat → Int
  perf_errno : Nat → Int
  attach_ok : Nat → Bool
  polls : List Int

/-- A world is well formed when a failing `parse_cpu_mask_file` reports a
nonzero error code (its C contract: zero means success). -/
def World.wf (w : World) : Prop :=
  ∀ e, w.cpu_mask = Except.error e → e ≠ 0

/-- State of the per-CPU setup loop (profile.c:230-256): the `pefds` and
`links` tables (as updated by `pefds[cpu] = pefd` / `links[cpu] = ...`),
the traces of CPUs for which a counter was opened and for which the BPF
program was attached (in loop order), the stderr diagnostics so far, and
the `err` variable. -/
structure LoopSt where
  pefds : List Int
  links : List Bool
  opened : List Nat
  attached : List Nat
  diags : List Diag
  err : Int
deriving DecidableEq

/-- Embedding of the `for (cpu = 0; cpu < num_cpus; cpu++)` setup loop
(profile.c:230-256), over the list of remaining CPU indices.  A CPU is
skipped when `cpu >= num_online_cpus || !online_mask[cpu]` — with
`num_online_cpus = mask.length` this is exactly `mask.getD cpu false =
false`.  A negative `perf_event_open` result prints one of the two
failure messages, sets `err = -1` and breaks to cleanup; an attachment
failure sets `err = -1` and breaks to cleanup. -/
def cpu_loop (w : World) (mask : List Bool) (sw_event : Bool) :
    List Nat → LoopSt → LoopSt
  | [], st => st
  | c :: rest, st =>
    if mask.getD c false = false then
      cpu_loop w mask sw_event rest st
    else if w.perf_open c < 0 then
      { st with diags := st.diags ++ [perf_diag sw_event (w.perf_errno c)], err := -1 }
    else if w.attach_ok c = false then
      { st with
          pefds := st.pefds.set c (w.perf_open c),
          opened := st.opened ++ [c],
          err := -1 }
    else
      cpu_loop w mask sw_event rest
        { st with
            pefds := st.pefds.set c (w.perf_open c),
            opened := st.opened ++ [c],
            links := st.links.set c true,
            attached := st.attached ++ [c] }

/-- Everything `main` computes before entering the poll loop, when it
gets that far: the parsed options, the online mask, `num_cpus`, the
`perf_event_attr` value, and the final state of the setup loop. -/
structure SetupOut where
  freq : Int
  sw_event : Bool
  mask : List Bool
  n : Nat
  attr : PerfAttr
  st : LoopSt
deriving DecidableEq

/-- Result of the startup sequence of `main` (everything before the poll
loop): the usage/help early return, a failure before the setup loop
(with the diagnostics printed and the value of `err`), or the setup loop
was executed (its final `err` tells whether it succeeded). -/
inductive SetupRes where
  | helpExit : SetupRes
  | preFail (diags : List Diag) (e : Int) : SetupRes
  | ran (out : SetupOut) : SetupRes
deriving DecidableEq

/-- Embedding of `main` from the option loop up to and including the
per-CPU setup loop (profile.c:164-256), in source order: option parsing,
`parse_cpu_mask_file`, `libbpf_num_possible_cpus`,
`profile_bpf__open_and_load`, `blaze_symbolizer_new`,
`ring_buffer__new` (whose failure path prints no diagnostic), then the
`perf_event_attr` setup and the per-CPU loop starting from `pefds` all
`-1`, `links` all NULL and `err = 0`. -/
def main_setup (opts : List CliOpt) (w : World) : SetupRes :=
  match getopt_loop opts 1 false with
  | Option.none => SetupRes.helpExit
  | Option.some (freq, sw_event) =>
    match w.cpu_mask with
    | Except.error e => SetupRes.preFail [Diag.cpu_mask_fail e] e
    | Except.ok mask =>
      if w.num_cpus ≤ 0 then SetupRes.preFail [Diag.num_cpus_fail] (-1)
      else if w.skel_ok = false then SetupRes.preFail [Diag.skel_fail] (-1)
      else if w.symbolizer_ok = false then SetupRes.preFail [Diag.symbolizer_fail] (-1)
      else if w.ringbuf_ok = false then SetupRes.preFail [] (-1)
      else
        let n := w.num_cpus.toNat
        SetupRes.ran
          ⟨freq, sw_event, mask, n, make_attr sw_event freq,
            cpu_loop w mask sw_event (List.range n)
              ⟨List.replicate n (-1), List.replicate n false, [], [], [], 0⟩⟩

/-- The `while (ring_buffer__poll(ring_buf, -1) >= 0) {}` loop
(profile.c:259-260): it keeps waiting while the result is nonnegative and
exits (to cleanup, with `err` untouched) at the first negative result;
if no poll result is ever negative the process never returns. -/
def poll_exits : List Int → Bool
  | [] => false
  | p :: rest => if 0 ≤ p then poll_exits rest else true

/-- What the `cleanup:` block closes: `close(pefds[i])` runs for every
slot with `pefds[i] >= 0` (profile.c:268-274). -/
def cleanup_closed (n : Nat) (pefds : List Int) : List Nat :=
  (List.range n).filter (fun i => decide (0 ≤ pefds.getD i (-1)))

/-- Which `bpf_link__destroy(links[cpu])` calls in the `cleanup:` block
destroy an actual link: the block iterates all slots, and destroying a
NULL link is a no-op (profile.c:263-267). -/
def cleanup_destroyed (n : Nat) (links : List Bool) : List Nat :=
  (List.range n).filter (fun i => links.getD i false)

/-- Observable outcome of one full run of `main`: the process exit
status, the stderr diagnostics, the `perf_event_attr` value (when
reached), the traces of counters opened and programs attached, what
cleanup closed and destroyed, and whether the poll loop was reached. -/
structure MainResult where
  exit_code : Int
  diags : List Diag
  attr : Option PerfAttr
  opened : List Nat
  attached : List Nat
  closed : List Nat
  destroyed : List Nat
  reached_loop : Bool
deriving DecidableEq

/-- Embedding of `main` (profile.c:146-280).  `Option.none` models the
run never returning (the poll loop blocks forever).  All return paths
except the usage path go through `cleanup:` and `return -err;`. -/
def main_run (opts : List CliOpt) (w : World) : Option MainResult :=
  match main_setup opts w with
  | SetupRes.helpExit => Option.some ⟨1, [], Option.none, [], [], [], [], false⟩
  | SetupRes.preFail diags e => Option.some ⟨-e, diags, Option.none, [], [], [], [], false⟩
  | SetupRes.ran out =>
    if out.st.err = 0 then
      if poll_exits w.polls then
        Option.some ⟨-out.st.err, out.st.diags, Option.some out.attr, out.st.opened,
          out.st.attached, cleanup_closed out.n out.st.pefds,
          cleanup_destroyed out.n out.st.links, true⟩
      else Option.none
    else
      Option.some ⟨-out.st.err, out.st.diags, Option.some out.attr, out.st.opened,
        out.st.attached, cleanup_closed out.n out.st.pefds,
        cleanup_destroyed out.n out.st.links, false⟩

/-- A run in which every external call succeeds, with one possible CPU
that is online, `perf_event_open` returning fd 3, and the first (and
only) poll reporting the unrecoverable error `-5`. -/
def okWorld : World :=
  { cpu_mask := Except.ok [true]
    num_cpus := 1
    skel_ok := true
    symbolizer_ok := true
    ringbuf_ok := true
    perf_open := fun _ => 3
    perf_errno := fun _ => 0
    attach_ok := fun _ => true
    polls := [-5] }

/-- The Reporter line the spec prescribes for the input address `a` at
index `i` of a successfully symbolized stack: "an address with no
resolved symbol prints the raw address followed by a no-symbol marker,
and a resolved address prints the raw address, symbol name, symbol start
address, offset, and source location when known".  (Stated from the
spec's words, to be compared with the loop of `show_stack_trace`.) -/
def spec_out_line (syms : blaze_syms) (i : Nat) (a : Nat) : PrintLine :=
  match syms[i]? with
  | Option.none => PrintLine.noSymbol a
  | Option.some s =>
    match s.name with
    | Option.none => PrintLine.noSymbol a
    | Option.some nm => PrintLine.frame a nm s.addr s.offset (srcOf (Option.some s.code_info))

/-- The spec's Reporter output for a whole stack: exactly one out-of-line
line per input address, in input order. -/
def spec_out_lines (syms : blaze_syms) : Nat → List Nat → List PrintLine
  | _, [] => []
  | i, a :: rest => spec_out_line syms i a :: spec_out_lines syms (i + 1) rest

/-- A symbolizer that resolves every address of every request — in
particular the raw address 0 — to a symbol named `z` (the Symbolizer
contract of the spec allows any per-address result, so this is a
legitimate collaborator behavior). -/
def zeroResolvingSym : Symbolizer :=
  fun _ stack =>
    Option.some (stack.map (fun _ => ⟨Option.some ("z"), 0, 0, ⟨Option.none, Option.none, 0⟩, []⟩))

/-- A symbolizer answering every request with: first address resolved to
`good1` at `0x100`, second unresolved (NULL name), third resolved to
`good3` at `0x300`. -/
def thirdFrameSym : Symbolizer :=
  fun _ _ =>
    Option.some
      [⟨Option.some ("good1"), 256, 4, ⟨Option.none, Option.none, 0⟩, []⟩,
       ⟨Option.none, 0, 0, ⟨Option.none, Option.none, 0⟩, []⟩,
       ⟨Option.some ("good3"), 768, 8, ⟨Option.none, Option.none, 0⟩, []⟩]

/-- A symbolizer returning a single result — resolved to symbol `z` —
for every request, whatever its length. -/
def oneResultSym : Symbolizer :=
  fun _ _ =>
    Option.some [⟨Option.some ("z"), 0, 0, ⟨Option.none, Option.none, 0⟩, []⟩]

/-- An out-of-line symbol `outer` with two inlined functions, outermost
first: `mid`, then `leaf`. -/
def outerSym : blaze_sym :=
  ⟨Option.some ("outer"), 4096, 16,
    ⟨Option.some ("/src"), Option.some ("outer.c"), 10⟩,
    [⟨("mid"), ⟨Option.some ("/src"), Option.some ("mid.c"), 20⟩⟩,
     ⟨("leaf"), ⟨Option.none, Option.some ("leaf.c"), 30⟩⟩]⟩

/-- A symbolizer resolving the single address of every request to
`outerSym`. -/
def twoInlinedSym : Symbolizer := fun _ _ => Option.some [outerSym]

/-- An Event Record with no kernel stack (`kstack_sz = 0`), one user
frame (`ustack_sz = 8` bytes) and pid 0. -/
def oneSidedEvent : stacktrace_event :=
  ⟨0, 0, ("swapper"), 0, 8, [], [4096]⟩

/-- An Event Record with one kernel frame, two user frames and pid 42. -/
def twoSidedEvent : stacktrace_event :=
  ⟨42, 1, ("bash"), 8, 16, [7000], [5000, 5008]⟩

/-- Invariant tying the `pefds`/`links` tables to the traces of opened
counters and attached programs: a slot holds a nonnegative fd exactly for
the CPUs whose counter was opened, and a non-NULL link exactly for the
CPUs the program was attached on. -/
def LoopInv (n : Nat) (st : LoopSt) : Prop :=
  st.pefds.length = n ∧ st.links.length = n ∧
    (∀ i, 0 ≤ st.pefds.getD i (-1) ↔ i ∈ st.opened) ∧
    (∀ i, st.links.getD i false = true ↔ i ∈ st.attached)

/-- A run in which everything succeeds until `perf_event_open` fails with
`ENOENT` on the only online CPU, in hardware mode. -/
def enoentWorld : World :=
  { cpu_mask := Except.ok [true]
    num_cpus := 1
    skel_ok := true
    symbolizer_ok := true
    ringbuf_ok := true
    perf_open := fun _ => -1
    perf_errno := fun _ => 2
    attach_ok := fun _ => true
    polls := [] }

example :
    show_stack_trace (fun _ _ => Option.none) [16, 32] 0 =
      ([⟨AddrSpace.kernel, [16, 32]⟩], [PrintLine.symbolizeFailed]) := by decide

example :
    (show_stack_trace
        (fun _ _ => Option.some [⟨Option.some ("f"), 8, 8, ⟨Option.none, Option.none, 0⟩, []⟩])
        [16, 32] 5).2 =
      [PrintLine.frame 16 ("f") 8 8 SrcLoc.unknown, PrintLine.noSymbol 32] := by decide

example :
    main_run [] okWorld =
      Option.some ⟨0, [], Option.some ⟨0, 0, 1, 1⟩, [0], [0], [0], [0], true⟩ := by decide

/-- Updating slot `i` of a table and reading it back through `getD`. -/
theorem getD_set_self {α : Type} (l : List α) (i : Nat) (v d : α) (h : i < l.length) :
    (l.set i v).getD i d = v := by
  rw [List.getD_eq_getElem?_getD, List.getElem?_set_self']
  cases hg : l[i]? with
  | none => exact absurd h (by simpa using List.getElem?_eq_none_iff.mp hg)
  | some x => simp

/-- Updating slot `i` of a table leaves every other `getD` read unchanged. -/
theorem getD_set_ne {α : Type} (l : List α) (i j : Nat) (v d : α) (h : i ≠ j) :
    (l.set i v).getD j d = l.getD j d := by
  rw [List.getD_eq_getElem?_getD, List.getD_eq_getElem?_getD, List.getElem?_set_ne h]

/-- Reading any slot of an all-`v` table with default `v` gives `v`. -/
theorem getD_replicate_self {α : Type} (n i : Nat) (v : α) :
    (List.replicate n v).getD i v = v := by
  rw [List.getD_eq_getElem?_getD, List.getElem?_replicate]
  split <;> simp

theorem spec_out_lines_length (syms : blaze_syms) :
    ∀ (stack : List Nat) (i : Nat), (spec_out_lines syms i stack).length = stack.length := by
  intro stack
  induction stack with
  | nil => intro i; rfl
  | cons a rest ih => intro i; simp [spec_out_lines, ih]

/-- Lines printed for the inlined functions of a frame are all
inlined-marked lines, none of them out-of-line. -/
theorem filter_inlined_lines (fs : List blaze_symbolize_inlined_fn) :
    (fs.map (fun f => PrintLine.inlined f.name (srcOf (Option.some f.code_info)))).filter
      isOutOfLine = [] := by
  induction fs with
  | nil => rfl
  | cons f fs ih => simp [isOutOfLine, ih]

/-- For a nonzero input address, the out-of-line lines of one loop
iteration are exactly the single line the spec prescribes. -/
theorem frame_group_filter (syms : blaze_syms) (i a : Nat) (ha : a ≠ 0) :
    (frame_group syms i a).filter isOutOfLine = [spec_out_line syms i a] := by
  unfold frame_group spec_out_line
  cases hg : syms[i]? with
  | none => simp [isOutOfLine]
  | some s =>
    cases hn : s.name with
    | none => simp [hn, isOutOfLine]
    | some nm =>
      simp [hn, print_frame, ha, isOutOfLine, filter_inlined_lines]

/-- Filtering the whole loop output of `show_stack_trace` down to its
out-of-line lines gives the spec's one-line-per-address list, provided no
input address is 0. -/
theorem trace_lines_filter (syms : blaze_syms) :
    ∀ (stack : List Nat) (i : Nat), (∀ a ∈ stack, a ≠ 0) →
      (trace_lines syms i stack).filter isOutOfLine = spec_out_lines syms i stack := by
  intro stack
  induction stack with
  | nil => intro i _; rfl
  | cons a rest ih =>
    intro i h
    simp only [trace_lines, spec_out_lines, List.filter_append]
    rw [frame_group_filter syms i a (h a (by simp)), ih (i + 1) (fun b hb => h b (by simp [hb]))]
    exact List.singleton_append

/-- C2: an Event Record whose kernel and user stack sizes are both at
most 0 is skipped by `event_handler`: the handler returns 1, performs no
symbolizer invocation and prints nothing (profile.c:114-115). -/
theorem c2_empty_record_skipped (symbolize : Symbolizer) (ev : stacktrace_event)
    (hk : ev.kstack_sz ≤ 0) (hu : ev.ustack_sz ≤ 0) :
    event_handler symbolize ev = (1, [], []) := by
  simp [event_handler, hk, hu]

theorem c2_empty_record_skipped_witness :
    (0 : Int) ≤ 0 ∧ (-8 : Int) ≤ 0 ∧
      event_handler (fun _ _ => Option.none)
        ⟨5, 0, ("idle"), 0, -8, [], []⟩ = (1, [], []) :=
  ⟨by decide, by decide,
    c2_empty_record_skipped (fun _ _ => Option.none) ⟨5, 0, ("idle"), 0, -8, [], []⟩
      (by decide) (by decide)⟩

/-- C5: when the whole symbolization call fails (NULL result),
`show_stack_trace` prints the failure diagnostic and returns — no frame
lines — and `event_handler` still returns 0 for every non-skipped record,
so the ring-buffer consumer loop goes on to the next record (a negative
handler return would abort `ring_buffer__poll`; 0 does not). -/
theorem c5_whole_call_failure_nonfatal (symbolize : Symbolizer) (stack : List Nat) (pid : Int)
    (hfail : symbolize (spaceFor pid) stack = Option.none) :
    (show_stack_trace symbolize stack pid).2 = [PrintLine.symbolizeFailed] ∧
      (∀ ev : stacktrace_event, ¬(ev.kstack_sz ≤ 0 ∧ ev.ustack_sz ≤ 0) →
        (event_handler symbolize ev).1 = 0) := by
  constructor
  · simp [show_stack_trace, hfail]
  · intro ev hev
    simp [event_handler, hev]

theorem c5_whole_call_failure_nonfatal_witness :
    (fun (_ : AddrSpace) (_ : List Nat) => (Option.none : Option blaze_syms))
        (spaceFor 0) [16] = Option.none ∧
      (show_stack_trace (fun _ _ => Option.none) [16] 0).2 = [PrintLine.symbolizeFailed] :=
  ⟨rfl, (c5_whole_call_failure_nonfatal (fun _ _ => Option.none) [16] 0 rfl).1⟩

/-- C3 counterexample: for the one-address stack `[0]` whose
symbolization call succeeds and resolves the address, the claim demands
one out-of-line line showing the raw address, symbol name, start address
and offset; but `print_frame` treats the input address 0 as the
inlined-frame sentinel, prints the inline-marked form without the raw
address, and the output contains no out-of-line line at all. -/
theorem c3_counterexample :
    (show_stack_trace zeroResolvingSym [0] 0).2 = [PrintLine.inlined ("z") SrcLoc.unknown] ∧
      ((show_stack_trace zeroResolvingSym [0] 0).2.filter isOutOfLine).length ≠ 1 := by
  constructor
  · decide
  · decide

/-- C3 (amended): for every stack of nonzero addresses whose
symbolization call succeeds, the out-of-line lines printed by
`show_stack_trace` are exactly one line per input address, in input
order: a `<no-symbol>` line with the raw address when the address has no
resolved symbol (missing result or NULL name), and otherwise the frame
line with the raw address, symbol name, start address, offset and source
location when known.  (A raw address equal to 0, if resolved, is instead
printed in the inlined style without the address — the counterexample
above.) -/
theorem c3_one_out_of_line_per_address (symbolize : Symbolizer) (stack : List Nat) (pid : Int)
    (syms : blaze_syms) (h : symbolize (spaceFor pid) stack = Option.some syms)
    (hz : ∀ a ∈ stack, a ≠ 0) :
    (show_stack_trace symbolize stack pid).2.filter isOutOfLine = spec_out_lines syms 0 stack ∧
      (spec_out_lines syms 0 stack).length = stack.length := by
  constructor
  · simp only [show_stack_trace, h]
    exact trace_lines_filter syms stack 0 hz
  · exact spec_out_lines_length syms stack 0

theorem c3_one_out_of_line_per_address_witness :
    thirdFrameSym (spaceFor 0) [260, 520, 776] =
        Option.some
          [⟨Option.some ("good1"), 256, 4, ⟨Option.none, Option.none, 0⟩, []⟩,
           ⟨Option.none, 0, 0, ⟨Option.none, Option.none, 0⟩, []⟩,
           ⟨Option.some ("good3"), 768, 8, ⟨Option.none, Option.none, 0⟩, []⟩] ∧
      (∀ a ∈ [260, 520, 776], a ≠ 0) ∧
      ((show_stack_trace thirdFrameSym [260, 520, 776] 0).2.filter isOutOfLine =
          [PrintLine.frame 260 ("good1") 256 4 SrcLoc.unknown,
           PrintLine.noSymbol 520,
           PrintLine.frame 776 ("good3") 768 8 SrcLoc.unknown] ∧
        True) := by
  refine ⟨rfl, by decide, ?_, trivial⟩
  have h := (c3_one_out_of_line_per_address thirdFrameSym [260, 520, 776] 0 _ rfl
    (by decide)).1
  rw [h]
  decide

/-- C4: in a successfully symbolized stack, a resolved out-of-line frame
(nonzero raw address, non-NULL name) with `k` attached inlined functions
prints its own frame line first, followed by exactly `k` inline-marked
lines in the order of the `inlined` sequence (outermost call first, the
order blazesym returns), all before the output of the next top-level
frame; each inlined line carries only a name and source location — no
address, no offset (`PrintLine.inlined` has no such fields). -/
theorem c4_inlined_frames (symbolize : Symbolizer) (stack : List Nat) (pid : Int)
    (syms : blaze_syms) (i a : Nat) (s : blaze_sym) (nm : String)
    (h : symbolize (spaceFor pid) stack = Option.some syms)
    (ha : a ≠ 0) (hs : syms[i]? = Option.some s) (hn : s.name = Option.some nm) :
    (show_stack_trace symbolize stack pid).2 = trace_lines syms 0 stack ∧
      (∀ rest : List Nat, trace_lines syms i (a :: rest) =
        (PrintLine.frame a nm s.addr s.offset (srcOf (Option.some s.code_info)) ::
          s.inlined.map (fun f => PrintLine.inlined f.name (srcOf (Option.some f.code_info)))) ++
          trace_lines syms (i + 1) rest) ∧
      (s.inlined.map
        (fun f => PrintLine.inlined f.name (srcOf (Option.some f.code_info)))).length
        = s.inlined.length := by
  refine ⟨by simp [show_stack_trace, h], ?_, List.length_map s.inlined _⟩
  intro rest
  simp [trace_lines, frame_group, hs, hn, print_frame, ha]

theorem c4_inlined_frames_witness :
    twoInlinedSym (spaceFor 9) [4112] = Option.some [outerSym] ∧
      (4112 : Nat) ≠ 0 ∧
      trace_lines [outerSym] 0 (4112 :: []) =
        (PrintLine.frame 4112 ("outer") outerSym.addr outerSym.offset
            (srcOf (Option.some outerSym.code_info)) ::
          outerSym.inlined.map
            (fun f => PrintLine.inlined f.name (srcOf (Option.some f.code_info)))) ++
          trace_lines [outerSym] 1 [] :=
  ⟨rfl, by decide,
    (c4_inlined_frames twoInlinedSym [4112] 9 [outerSym] 0 4112 outerSym ("outer") rfl
      (by decide) rfl rfl).2.1 []⟩

/-- C10 counterexample: for the stack `[0, 5]` whose symbolization call
succeeds with a single result (fewer than the 2 input addresses) that
resolves the address 0, the claim's conclusion — exactly one out-of-line
line per input address — demands two out-of-line lines; but the resolved
address 0 prints in the inlined style (the `print_frame` sentinel, as in
the C3 counterexample), so the output holds only one out-of-line line:
the `<no-symbol>` line of the beyond-count address 5. -/
theorem c10_counterexample :
    oneResultSym (spaceFor 0) [0, 5] =
        Option.some [⟨Option.some ("z"), 0, 0, ⟨Option.none, Option.none, 0⟩, []⟩] ∧
      (show_stack_trace oneResultSym [0, 5] 0).2 =
        [PrintLine.inlined ("z") SrcLoc.unknown, PrintLine.noSymbol 5] ∧
      ((show_stack_trace oneResultSym [0, 5] 0).2.filter isOutOfLine).length ≠ 2 :=
  ⟨rfl, by decide, by decide⟩

/-- C10 (amended): when the symbolization call succeeds but returns
fewer results than there are input addresses, the printing loop stays in
bounds (the `syms->cnt <= i` guard is embedded as total list indexing):
every index at or beyond the returned count prints exactly the
raw-address `<no-symbol>` line — whatever the address value, 0 included —
the output decomposes into one consecutive group per input address in
input order, and when every input address is nonzero the output contains
exactly one out-of-line line per input address.  (A resolved address 0
prints in the inlined style and contributes no out-of-line line — the
counterexample above.) -/
theorem c10_short_result_in_bounds (symbolize : Symbolizer) (stack : List Nat) (pid : Int)
    (syms : blaze_syms) (h : symbolize (spaceFor pid) stack = Option.some syms)
    (hlt : syms.length < stack.length) :
    (show_stack_trace symbolize stack pid).2 = trace_lines syms 0 stack ∧
      (∀ i a, syms.length ≤ i → frame_group syms i a = [PrintLine.noSymbol a]) ∧
      (∀ i a rest, trace_lines syms i (a :: rest) =
        frame_group syms i a ++ trace_lines syms (i + 1) rest) ∧
      ((∀ a ∈ stack, a ≠ 0) →
        ((show_stack_trace symbolize stack pid).2.filter isOutOfLine).length
          = stack.length) := by
  refine ⟨by simp [show_stack_trace, h], ?_, fun i a rest => rfl, ?_⟩
  · intro i a hle
    simp [frame_group, List.getElem?_eq_none hle]
  · intro hz
    have h1 : (show_stack_trace symbolize stack pid).2 = trace_lines syms 0 stack := by
      simp [show_stack_trace, h]
    rw [h1, trace_lines_filter syms stack 0 hz, spec_out_lines_length]

theorem c10_short_result_in_bounds_witness :
    thirdFrameSym (spaceFor 0) [260, 520, 776, 1032] =
        Option.some
          [⟨Option.some ("good1"), 256, 4, ⟨Option.none, Option.none, 0⟩, []⟩,
           ⟨Option.none, 0, 0, ⟨Option.none, Option.none, 0⟩, []⟩,
           ⟨Option.some ("good3"), 768, 8, ⟨Option.none, Option.none, 0⟩, []⟩] ∧
      (3 : Nat) < 4 ∧
      (∀ a ∈ ([260, 520, 776, 1032] : List Nat), a ≠ 0) ∧
      frame_group
          [⟨Option.some ("good1"), 256, 4, ⟨Option.none, Option.none, 0⟩, []⟩,
           ⟨Option.none, 0, 0, ⟨Option.none, Option.none, 0⟩, []⟩,
           ⟨Option.some ("good3"), 768, 8, ⟨Option.none, Option.none, 0⟩, []⟩] 3 1032 =
        [PrintLine.noSymbol 1032] ∧
      ((show_stack_trace thirdFrameSym [260, 520, 776, 1032] 0).2.filter isOutOfLine).length
        = 4 :=
  ⟨rfl, by decide, by decide,
    (c10_short_result_in_bounds thirdFrameSym [260, 520, 776, 1032] 0 _ rfl
      (by decide)).2.1 3 1032 (by decide),
    (c10_short_result_in_bounds thirdFrameSym [260, 520, 776, 1032] 0 _ rfl
      (by decide)).2.2.2 (by decide)⟩

/-- C8 counterexample: the record `oneSidedEvent` is not skipped (its
user stack size is positive), yet `event_handler` invokes the Symbolizer
exactly once, not twice — there is no kernel-stack call — and that single
call for the user frames uses the Kernel descriptor, because the record's
pid is 0 and `show_stack_trace` selects the kernel source for pid 0. -/
theorem c8_counterexample :
    ¬(oneSidedEvent.kstack_sz ≤ 0 ∧ oneSidedEvent.ustack_sz ≤ 0) ∧
      (event_handler (fun _ _ => Option.none) oneSidedEvent).2.1 =
        [⟨AddrSpace.kernel, [4096]⟩] ∧
      ((event_handler (fun _ _ => Option.none) oneSidedEvent).2.1).length ≠ 2 := by
  refine ⟨by decide, ?_, by decide⟩
  decide

/-- C8 (amended): for each delivered Event Record, `event_handler`
invokes the Symbolizer once per stack with positive byte size, in order
(kernel first): exactly twice — once with the Kernel descriptor for the
kernel frames and once with the Process(pid) descriptor for the user
frames — when both sizes are positive and the pid is nonzero; exactly
once when only one side is positive; and the user-frame call falls back
to the Kernel descriptor when the record's pid is 0 (so a both-positive
record with pid 0 yields two Kernel-descriptor calls). -/
theorem c8_symbolizer_calls (symbolize : Symbolizer) (ev : stacktrace_event) :
    (0 < ev.kstack_sz → 0 < ev.ustack_sz → ev.pid ≠ 0 →
      (event_handler symbolize ev).2.1 =
        [⟨AddrSpace.kernel, ev.kstack.take (ev.kstack_sz.toNat / 8)⟩,
         ⟨AddrSpace.process ev.pid, ev.ustack.take (ev.ustack_sz.toNat / 8)⟩]) ∧
    (ev.kstack_sz ≤ 0 → 0 < ev.ustack_sz → ev.pid ≠ 0 →
      (event_handler symbolize ev).2.1 =
        [⟨AddrSpace.process ev.pid, ev.ustack.take (ev.ustack_sz.toNat / 8)⟩]) ∧
    (0 < ev.kstack_sz → ev.ustack_sz ≤ 0 →
      (event_handler symbolize ev).2.1 =
        [⟨AddrSpace.kernel, ev.kstack.take (ev.kstack_sz.toNat / 8)⟩]) ∧
    (ev.kstack_sz ≤ 0 → 0 < ev.ustack_sz → ev.pid = 0 →
      (event_handler symbolize ev).2.1 =
        [⟨AddrSpace.kernel, ev.ustack.take (ev.ustack_sz.toNat / 8)⟩]) ∧
    (0 < ev.kstack_sz → 0 < ev.ustack_sz → ev.pid = 0 →
      (event_handler symbolize ev).2.1 =
        [⟨AddrSpace.kernel, ev.kstack.take (ev.kstack_sz.toNat / 8)⟩,
         ⟨AddrSpace.kernel, ev.ustack.take (ev.ustack_sz.toNat / 8)⟩]) := by
  have hcalls : ∀ (stack : List Nat) (pid : Int),
      (show_stack_trace symbolize stack pid).1 = [⟨spaceFor pid, stack⟩] := by
    intro stack pid
    cases h : symbolize (spaceFor pid) stack <;> simp [show_stack_trace, h]
  refine ⟨?_, ?_, ?_, ?_, ?_⟩
  · intro hk hu hp
    have hns : ¬(ev.kstack_sz ≤ 0 ∧ ev.ustack_sz ≤ 0) := by omega
    simp [event_handler, hns, hk, hu, hcalls, spaceFor, hp]
  · intro hk hu hp
    have hns : ¬(ev.kstack_sz ≤ 0 ∧ ev.ustack_sz ≤ 0) := by omega
    have hk2 : ¬(0 < ev.kstack_sz) := by omega
    simp [event_handler, hns, hk2, hu, hcalls, spaceFor, hp]
  · intro hk hu
    have hns : ¬(ev.kstack_sz ≤ 0 ∧ ev.ustack_sz ≤ 0) := by omega
    have hu2 : ¬(0 < ev.ustack_sz) := by omega
    simp [event_handler, hns, hk, hu2, hcalls, spaceFor]
  · intro hk hu hp
    have hns : ¬(ev.kstack_sz ≤ 0 ∧ ev.ustack_sz ≤ 0) := by omega
    have hk2 : ¬(0 < ev.kstack_sz) := by omega
    simp [event_handler, hns, hk2, hu, hcalls, spaceFor, hp]
  · intro hk hu hp
    have hns : ¬(ev.kstack_sz ≤ 0 ∧ ev.ustack_sz ≤ 0) := by omega
    simp [event_handler, hns, hk, hu, hcalls, spaceFor, hp]

theorem c8_symbolizer_calls_witness :
    (0 : Int) < twoSidedEvent.kstack_sz ∧ (0 : Int) < twoSidedEvent.ustack_sz ∧
      twoSidedEvent.pid ≠ 0 ∧
      (event_handler (fun _ _ => Option.none) twoSidedEvent).2.1 =
        [⟨AddrSpace.kernel, twoSidedEvent.kstack.take (twoSidedEvent.kstack_sz.toNat / 8)⟩,
         ⟨AddrSpace.process twoSidedEvent.pid,
           twoSidedEvent.ustack.take (twoSidedEvent.ustack_sz.toNat / 8)⟩] :=
  ⟨by decide, by decide, by decide,
    (c8_symbolizer_calls (fun _ _ => Option.none) twoSidedEvent).1 (by decide) (by decide)
      (by decide)⟩

/-- At every `-f` occurrence the option loop stores `atoi(optarg)`
clamped to at least 1, so the frequency it returns is always at least 1
whenever it starts from a value at least 1. -/
theorem getopt_loop_freq_ge_one :
    ∀ (opts : List CliOpt) (f0 : Int) (sw : Bool) (freq : Int) (sw2 : Bool), 1 ≤ f0 →
      getopt_loop opts f0 sw = Option.some (freq, sw2) → 1 ≤ freq := by
  intro opts
  induction opts with
  | nil =>
    intro f0 sw freq sw2 h1 h2
    simp [getopt_loop] at h2
    omega
  | cons c rest ih =>
    intro f0 sw freq sw2 h1 h2
    cases c with
    | f v => exact ih (if v < 1 then 1 else v) sw freq sw2 (by split <;> omega) h2
    | s => exact ih f0 true freq sw2 h1 h2
    | h => exact absurd h2 (by simp [getopt_loop])
    | unknown => exact absurd h2 (by simp [getopt_loop])

/-- C9: a `-f` argument whose `atoi` value is 0 or negative yields an
effective `sample_freq` of 1 in the `perf_event_attr` configured for
every counter (there is a single `attr` for the whole setup loop); a
value of at least 1 is used unchanged; with no `-f` option the default
is 1; and whatever the option list, a parsed frequency is always at
least 1. -/
theorem c9_frequency_clamped (v : Int) (w : World) (mask : List Bool)
    (hm : w.cpu_mask = Except.ok mask) (hn : 0 < w.num_cpus)
    (hs : w.skel_ok = true) (hy : w.symbolizer_ok = true) (hr : w.ringbuf_ok = true) :
    (∃ out : SetupOut, main_setup [CliOpt.f v] w = SetupRes.ran out ∧
        out.attr.sample_freq = (if v < 1 then 1 else v) ∧ 1 ≤ out.attr.sample_freq) ∧
      (∃ out : SetupOut, main_setup [] w = SetupRes.ran out ∧ out.attr.sample_freq = 1) ∧
      (∀ (opts : List CliOpt) (freq : Int) (sw_event : Bool),
        getopt_loop opts 1 false = Option.some (freq, sw_event) → 1 ≤ freq) := by
  have hn0 : ¬w.num_cpus ≤ 0 := by omega
  have h1 : main_setup [CliOpt.f v] w = SetupRes.ran
      ⟨(if v < 1 then 1 else v), false, mask, w.num_cpus.toNat,
        make_attr false (if v < 1 then 1 else v),
        cpu_loop w mask false (List.range w.num_cpus.toNat)
          ⟨List.replicate w.num_cpus.toNat (-1), List.replicate w.num_cpus.toNat false,
            [], [], [], 0⟩⟩ := by
    simp [main_setup, getopt_loop, hm, hn0, hs, hy, hr]
  have h2 : main_setup [] w = SetupRes.ran
      ⟨1, false, mask, w.num_cpus.toNat, make_attr false 1,
        cpu_loop w mask false (List.range w.num_cpus.toNat)
          ⟨List.replicate w.num_cpus.toNat (-1), List.replicate w.num_cpus.toNat false,
            [], [], [], 0⟩⟩ := by
    simp [main_setup, getopt_loop, hm, hn0, hs, hy, hr]
  refine ⟨⟨_, h1, rfl, by dsimp [make_attr]; split <;> omega⟩, ⟨_, h2, rfl⟩, ?_⟩
  intro opts freq sw_event hp
  exact getopt_loop_freq_ge_one opts 1 false freq sw_event (by omega) hp

theorem c9_frequency_clamped_witness :
    okWorld.cpu_mask = Except.ok [true] ∧ (0 : Int) < okWorld.num_cpus ∧
      (∃ out : SetupOut, main_setup [CliOpt.f (-3)] okWorld = SetupRes.ran out ∧
        out.attr.sample_freq = (if (-3 : Int) < 1 then 1 else (-3 : Int)) ∧
        1 ≤ out.attr.sample_freq) :=
  ⟨rfl, by decide,
    (c9_frequency_clamped (-3) okWorld [true] rfl (by decide) rfl rfl rfl).1⟩

/-- Step equation: an offline or absent CPU (`cpu >= num_online_cpus ||
!online_mask[cpu]`) is skipped. -/
theorem cpu_loop_cons_off (w : World) (mask : List Bool) (sw_event : Bool)
    (c : Nat) (rest : List Nat) (st : LoopSt) (hon : mask.getD c false = false) :
    cpu_loop w mask sw_event (c :: rest) st = cpu_loop w mask sw_event rest st := by
  conv_lhs => rw [cpu_loop]
  rw [hon, if_pos rfl]

/-- Step equation: `perf_event_open` fails on an online CPU — one failure
message, `err = -1`, break to cleanup. -/
theorem cpu_loop_cons_perf_fail (w : World) (mask : List Bool) (sw_event : Bool)
    (c : Nat) (rest : List Nat) (st : LoopSt) (hon : mask.getD c false = true)
    (hpf : w.perf_open c < 0) :
    cpu_loop w mask sw_event (c :: rest) st
      = ⟨st.pefds, st.links, st.opened, st.attached,
          st.diags ++ [perf_diag sw_event (w.perf_errno c)], -1⟩ := by
  unfold cpu_loop
  rw [hon, if_neg (by decide), if_pos hpf]

/-- Step equation: the counter opens but `bpf_program__attach_perf_event`
fails — `err = -1`, break to cleanup with the fd already recorded. -/
theorem cpu_loop_cons_attach_fail (w : World) (mask : List Bool) (sw_event : Bool)
    (c : Nat) (rest : List Nat) (st : LoopSt) (hon : mask.getD c false = true)
    (hpf : ¬w.perf_open c < 0) (hat : w.attach_ok c = false) :
    cpu_loop w mask sw_event (c :: rest) st
      = ⟨st.pefds.set c (w.perf_open c), st.links, st.opened ++ [c], st.attached,
          st.diags, -1⟩ := by
  unfold cpu_loop
  rw [hon, if_neg (by decide), if_neg hpf, if_pos hat]

/-- Step equation: open and attach both succeed on an online CPU. -/
theorem cpu_loop_cons_ok (w : World) (mask : List Bool) (sw_event : Bool)
    (c : Nat) (rest : List Nat) (st : LoopSt) (hon : mask.getD c false = true)
    (hpf : ¬w.perf_open c < 0) (hat : w.attach_ok c = true) :
    cpu_loop w mask sw_event (c :: rest) st
      = cpu_loop w mask sw_event rest
          ⟨st.pefds.set c (w.perf_open c), st.links.set c true, st.opened ++ [c],
            st.attached ++ [c], st.diags, st.err⟩ := by
  conv_lhs => rw [cpu_loop]
  rw [hon, if_neg (by decide), if_neg hpf, if_neg (by rw [hat]; decide)]

theorem loopInv_init (n : Nat) :
    LoopInv n ⟨List.replicate n (-1), List.replicate n false, [], [], [], 0⟩ := by
  refine ⟨List.length_replicate n _, List.length_replicate n _, ?_, ?_⟩
  · intro i
    simp [getD_replicate_self]
  · intro i
    simp [getD_replicate_self]

theorem inv_after_open (n : Nat) (st : LoopSt) (c : Nat) (fd : Int)
    (hc : c < n) (hfd : 0 ≤ fd) (hinv : LoopInv n st) :
    LoopInv n { st with pefds := st.pefds.set c fd, opened := st.opened ++ [c] } := by
  obtain ⟨hp, hl, ho, ha⟩ := hinv
  refine ⟨by rw [List.length_set]; exact hp, hl, ?_, fun i => ha i⟩
  intro i
  by_cases hic : i = c
  · subst hic
    rw [getD_set_self st.pefds i fd (-1) (by omega)]
    simp [hfd]
  · rw [getD_set_ne st.pefds c i fd (-1) (fun he => hic he.symm), ho i]
    simp [hic]

theorem inv_after_attach (n : Nat) (st : LoopSt) (c : Nat)
    (hc : c < n) (hinv : LoopInv n st) :
    LoopInv n { st with links := st.links.set c true, attached := st.attached ++ [c] } := by
  obtain ⟨hp, hl, ho, ha⟩ := hinv
  refine ⟨hp, by rw [List.length_set]; exact hl, fun i => ho i, ?_⟩
  intro i
  by_cases hic : i = c
  · subst hic
    rw [getD_set_self st.links i true false (by omega)]
    simp
  · rw [getD_set_ne st.links c i true false (fun he => hic he.symm), ha i]
    simp [hic]

/-- The setup loop preserves the table/trace invariant on every path,
including the early-exit failure paths. -/
theorem cpu_loop_inv (w : World) (mask : List Bool) (sw_event : Bool) (n : Nat) :
    ∀ (cs : List Nat) (st : LoopSt), (∀ x ∈ cs, x < n) → LoopInv n st →
      LoopInv n (cpu_loop w mask sw_event cs st) := by
  intro cs
  induction cs with
  | nil => intro st _ hinv; exact hinv
  | cons x rest ih =>
    intro st hb hinv
    have hx : x < n := hb x (by simp)
    have hbr : ∀ y ∈ rest, y < n := fun y hy => hb y (by simp [hy])
    cases hon : mask.getD x false with
    | false =>
      rw [cpu_loop_cons_off w mask sw_event x rest st hon]
      exact ih st hbr hinv
    | true =>
      by_cases hpf : w.perf_open x < 0
      · rw [cpu_loop_cons_perf_fail w mask sw_event x rest st hon hpf]
        exact hinv
      · have hfd : 0 ≤ w.perf_open x := by omega
        by_cases hat : w.attach_ok x = false
        · rw [cpu_loop_cons_attach_fail w mask sw_event x rest st hon hpf hat]
          exact inv_after_open n st x (w.perf_open x) hx hfd hinv
        · have hat2 : w.attach_ok x = true := by revert hat; cases w.attach_ok x <;> simp
          rw [cpu_loop_cons_ok w mask sw_event x rest st hon hpf hat2]
          exact ih _ hbr
            (inv_after_attach n _ x hx (inv_after_open n st x (w.perf_open x) hx hfd hinv))

/-- Skipping a prefix of CPUs on which every online unit opens and
attaches successfully: the loop reaches the remaining indices with
unchanged diagnostics and `err`. -/
theorem cpu_loop_skip (w : World) (mask : List Bool) (sw_event : Bool) :
    ∀ (pre : List Nat) (st : LoopSt),
      (∀ x ∈ pre, mask.getD x false = true → 0 ≤ w.perf_open x ∧ w.attach_ok x = true) →
      ∃ st2 : LoopSt,
        (∀ rest : List Nat, cpu_loop w mask sw_event (pre ++ rest) st
            = cpu_loop w mask sw_event rest st2) ∧
        st2.diags = st.diags ∧ st2.err = st.err := by
  intro pre
  induction pre with
  | nil => intro st _; exact ⟨st, fun rest => rfl, rfl, rfl⟩
  | cons x pre ih =>
    intro st hsucc
    cases hon : mask.getD x false with
    | false =>
      obtain ⟨st2, h1, h2, h3⟩ := ih st (fun y hy hmy => hsucc y (by simp [hy]) hmy)
      refine ⟨st2, ?_, h2, h3⟩
      intro rest
      rw [List.cons_append, cpu_loop_cons_off w mask sw_event x (pre ++ rest) st hon, h1 rest]
    | true =>
      have hx := hsucc x (by simp) hon
      have h0 := hx.1
      have hnlt : ¬w.perf_open x < 0 := by omega
      obtain ⟨st2, h1, h2, h3⟩ := ih
        ⟨st.pefds.set x (w.perf_open x), st.links.set x true, st.opened ++ [x],
          st.attached ++ [x], st.diags, st.err⟩
        (fun y hy hmy => hsucc y (by simp [hy]) hmy)
      refine ⟨st2, ?_, h2, h3⟩
      intro rest
      rw [List.cons_append,
        cpu_loop_cons_ok w mask sw_event x (pre ++ rest) st hon hnlt hx.2, h1 rest]

/-- When the whole setup loop succeeds (`err` still 0), it opened a
counter and attached the program on exactly the online CPUs of its index
list, in index order. -/
theorem cpu_loop_success (w : World) (mask : List Bool) (sw_event : Bool) :
    ∀ (cs : List Nat) (st : LoopSt),
      (cpu_loop w mask sw_event cs st).err = 0 →
      (cpu_loop w mask sw_event cs st).opened
          = st.opened ++ cs.filter (fun c => mask.getD c false) ∧
        (cpu_loop w mask sw_event cs st).attached
          = st.attached ++ cs.filter (fun c => mask.getD c false) := by
  intro cs
  induction cs with
  | nil =>
    intro st _
    constructor <;> simp [cpu_loop]
  | cons x rest ih =>
    intro st hfe
    cases hon : mask.getD x false with
    | false =>
      rw [cpu_loop_cons_off w mask sw_event x rest st hon] at hfe ⊢
      obtain ⟨h1, h2⟩ := ih st hfe
      have hng : ¬((fun c : Nat => mask.getD c false) x = true) := by
        show ¬(mask.getD x false = true)
        rw [hon]
        decide
      rw [@List.filter_cons_of_neg Nat (fun c : Nat => mask.getD c false) x rest hng, h1, h2]
      exact ⟨rfl, rfl⟩
    | true =>
      by_cases hpf : w.perf_open x < 0
      · rw [cpu_loop_cons_perf_fail w mask sw_event x rest st hon hpf] at hfe
        simp at hfe
      · by_cases hat : w.attach_ok x = false
        · rw [cpu_loop_cons_attach_fail w mask sw_event x rest st hon hpf hat] at hfe
          simp at hfe
        · have hat2 : w.attach_ok x = true := by revert hat; cases w.attach_ok x <;> simp
          rw [cpu_loop_cons_ok w mask sw_event x rest st hon hpf hat2] at hfe ⊢
          obtain ⟨h1, h2⟩ := ih _ hfe
          have hpg : ((fun c : Nat => mask.getD c false) x = true) := hon
          rw [@List.filter_cons_of_pos Nat (fun c : Nat => mask.getD c false) x rest hpg, h1, h2]
          constructor <;> rw [List.append_assoc, List.singleton_append]

/-- Under the invariant, the `cleanup:` block closes exactly the counters
that were opened and destroys (with effect) exactly the links that were
attached — teardown is complete no matter where the loop stopped. -/
theorem cleanup_of_inv (n : Nat) (st : LoopSt) (hinv : LoopInv n st) :
    (∀ i, i ∈ cleanup_closed n st.pefds ↔ i ∈ st.opened) ∧
      (∀ i, i ∈ cleanup_destroyed n st.links ↔ i ∈ st.attached) := by
  obtain ⟨hp, hl, ho, ha⟩ := hinv
  constructor
  · intro i
    simp only [cleanup_closed, List.mem_filter, List.mem_range, decide_eq_true_eq]
    constructor
    · rintro ⟨_, h2⟩
      exact (ho i).mp h2
    · intro hi
      refine ⟨?_, (ho i).mpr hi⟩
      by_contra hni
      have hd : st.pefds.getD i (-1) = -1 := List.getD_eq_default _ _ (by omega)
      have h0 := (ho i).mpr hi
      omega
  · intro i
    simp only [cleanup_destroyed, List.mem_filter, List.mem_range]
    constructor
    · rintro ⟨_, h2⟩
      exact (ha i).mp h2
    · intro hi
      refine ⟨?_, (ha i).mpr hi⟩
      by_contra hni
      have hd : st.links.getD i false = false := List.getD_eq_default _ _ (by omega)
      have h0 := (ha i).mpr hi
      rw [hd] at h0
      cases h0

/-- When option parsing succeeds and every pre-loop step succeeds,
`main` reaches the setup loop with the parsed frequency and mode, and the
loop starts from all-`-1` fd slots, all-NULL links and `err = 0`. -/
theorem main_setup_ran (opts : List CliOpt) (w : World) (freq : Int) (sw_event : Bool)
    (mask : List Bool)
    (hp : getopt_loop opts 1 false = Option.some (freq, sw_event))
    (hm : w.cpu_mask = Except.ok mask) (hn : 0 < w.num_cpus)
    (hs : w.skel_ok = true) (hy : w.symbolizer_ok = true) (hr : w.ringbuf_ok = true) :
    main_setup opts w = SetupRes.ran
      ⟨freq, sw_event, mask, w.num_cpus.toNat, make_attr sw_event freq,
        cpu_loop w mask sw_event (List.range w.num_cpus.toNat)
          ⟨List.replicate w.num_cpus.toNat (-1), List.replicate w.num_cpus.toNat false,
            [], [], [], 0⟩⟩ := by
  have hn0 : ¬w.num_cpus ≤ 0 := by omega
  simp [main_setup, hp, hm, hn0, hs, hy, hr]

/-- C7: after a fully successful startup (the setup loop finished with
`err = 0`), the loop opened exactly one sampling counter and made exactly
one attachment for each CPU index that is online in the supplied mask —
the `opened`/`attached` traces are exactly the online indices of
`0..num_cpus-1` in order, so offline or absent units get neither — and the
single `perf_event_attr` used for every counter has `freq = 1`
(frequency-based, not count-based, sampling). -/
theorem c7_exactly_one_per_online_unit (opts : List CliOpt) (w : World) (freq : Int)
    (sw_event : Bool) (mask : List Bool) (out : SetupOut)
    (hp : getopt_loop opts 1 false = Option.some (freq, sw_event))
    (hm : w.cpu_mask = Except.ok mask) (hn : 0 < w.num_cpus)
    (hs : w.skel_ok = true) (hy : w.symbolizer_ok = true) (hr : w.ringbuf_ok = true)
    (hran : main_setup opts w = SetupRes.ran out) (hok : out.st.err = 0) :
    out.st.opened = (List.range out.n).filter (fun c => mask.getD c false) ∧
      out.st.attached = (List.range out.n).filter (fun c => mask.getD c false) ∧
      out.attr.freq = 1 := by
  have hms := main_setup_ran opts w freq sw_event mask hp hm hn hs hy hr
  rw [hms] at hran
  injection hran with hout
  subst hout
  obtain ⟨h1, h2⟩ := cpu_loop_success w mask sw_event (List.range w.num_cpus.toNat)
    ⟨List.replicate w.num_cpus.toNat (-1), List.replicate w.num_cpus.toNat false,
      [], [], [], 0⟩ hok
  exact ⟨h1.trans (List.nil_append _), h2.trans (List.nil_append _), rfl⟩

theorem c7_exactly_one_per_online_unit_witness :
    ([0] : List Nat) = (List.range 1).filter (fun c => ([true] : List Bool).getD c false) ∧
      ([0] : List Nat) = (List.range 1).filter (fun c => ([true] : List Bool).getD c false) ∧
      (make_attr false 1).freq = 1 :=
  c7_exactly_one_per_online_unit [] okWorld 1 false [true]
    ⟨1, false, [true], 1, make_attr false 1, ⟨[3], [true], [0], [0], [], 0⟩⟩
    rfl rfl (by decide) rfl rfl rfl (by decide) rfl

/-- C6: if, on the first online CPU where anything goes wrong, either
`perf_event_open` fails (negative return) or the attachment fails (NULL
link), startup aborts: `main` never reaches the poll loop, the `cleanup:`
block closes exactly the counters already opened and destroys exactly the
links already attached (no partial retry), and the process exits with
status 1 (the negated `err = -1`); when the counter-creation failure is
`ENOENT` in hardware mode, the printed diagnostic is the variant that
suggests `--sw-event`. -/
theorem c6_unit_failure_fatal (opts : List CliOpt) (w : World) (freq : Int)
    (sw_event : Bool) (mask : List Bool) (pre post : List Nat) (c : Nat)
    (hp : getopt_loop opts 1 false = Option.some (freq, sw_event))
    (hm : w.cpu_mask = Except.ok mask) (hn : 0 < w.num_cpus)
    (hs : w.skel_ok = true) (hy : w.symbolizer_ok = true) (hr : w.ringbuf_ok = true)
    (hsplit : List.range w.num_cpus.toNat = pre ++ c :: post)
    (hpre : ∀ x ∈ pre, mask.getD x false = true → 0 ≤ w.perf_open x ∧ w.attach_ok x = true)
    (honl : mask.getD c false = true)
    (hfail : w.perf_open c < 0 ∨ w.attach_ok c = false) :
    ∃ res : MainResult, main_run opts w = Option.some res ∧
      res.exit_code = 1 ∧ res.reached_loop = false ∧
      (∀ i, i ∈ res.closed ↔ i ∈ res.opened) ∧
      (∀ i, i ∈ res.destroyed ↔ i ∈ res.attached) ∧
      (w.perf_open c < 0 → sw_event = false → w.perf_errno c = ENOENT →
        Diag.perf_fail_hint ∈ res.diags) := by
  have hms := main_setup_ran opts w freq sw_event mask hp hm hn hs hy hr
  obtain ⟨st2, hskip, hdiag2, herr2⟩ := cpu_loop_skip w mask sw_event pre
    ⟨List.replicate w.num_cpus.toNat (-1), List.replicate w.num_cpus.toNat false,
      [], [], [], 0⟩ hpre
  have hinvF : LoopInv w.num_cpus.toNat
      (cpu_loop w mask sw_event (List.range w.num_cpus.toNat)
        ⟨List.replicate w.num_cpus.toNat (-1), List.replicate w.num_cpus.toNat false,
          [], [], [], 0⟩) :=
    cpu_loop_inv w mask sw_event w.num_cpus.toNat (List.range w.num_cpus.toNat) _
      (fun x hx => List.mem_range.mp hx) (loopInv_init w.num_cpus.toNat)
  have hstep : cpu_loop w mask sw_event (List.range w.num_cpus.toNat)
      ⟨List.replicate w.num_cpus.toNat (-1), List.replicate w.num_cpus.toNat false,
        [], [], [], 0⟩
      = cpu_loop w mask sw_event (c :: post) st2 := by
    rw [hsplit]
    exact hskip (c :: post)
  obtain ⟨hcl, hds⟩ := cleanup_of_inv w.num_cpus.toNat _ hinvF
  by_cases hpf : w.perf_open c < 0
  · have hfin : cpu_loop w mask sw_event (c :: post) st2
        = ⟨st2.pefds, st2.links, st2.opened, st2.attached,
            st2.diags ++ [perf_diag sw_event (w.perf_errno c)], -1⟩ :=
      cpu_loop_cons_perf_fail w mask sw_event c post st2 honl hpf
    have herrF : (cpu_loop w mask sw_event (List.range w.num_cpus.toNat)
        ⟨List.replicate w.num_cpus.toNat (-1), List.replicate w.num_cpus.toNat false,
          [], [], [], 0⟩).err = -1 := by
      rw [hstep, hfin]
    have hrun : main_run opts w = Option.some
        ⟨1,
          (cpu_loop w mask sw_event (List.range w.num_cpus.toNat)
            ⟨List.replicate w.num_cpus.toNat (-1), List.replicate w.num_cpus.toNat false,
              [], [], [], 0⟩).diags,
          Option.some (make_attr sw_event freq),
          (cpu_loop w mask sw_event (List.range w.num_cpus.toNat)
            ⟨List.replicate w.num_cpus.toNat (-1), List.replicate w.num_cpus.toNat false,
              [], [], [], 0⟩).opened,
          (cpu_loop w mask sw_event (List.range w.num_cpus.toNat)
            ⟨List.replicate w.num_cpus.toNat (-1), List.replicate w.num_cpus.toNat false,
              [], [], [], 0⟩).attached,
          cleanup_closed w.num_cpus.toNat
            (cpu_loop w mask sw_event (List.range w.num_cpus.toNat)
              ⟨List.replicate w.num_cpus.toNat (-1), List.replicate w.num_cpus.toNat false,
                [], [], [], 0⟩).pefds,
          cleanup_destroyed w.num_cpus.toNat
            (cpu_loop w mask sw_event (List.range w.num_cpus.toNat)
              ⟨List.replicate w.num_cpus.toNat (-1), List.replicate w.num_cpus.toNat false,
                [], [], [], 0⟩).links,
          false⟩ := by
      simp [main_run, hms, herrF]
    refine ⟨_, hrun, rfl, rfl, hcl, hds, ?_⟩
    intro _ hsw henno
    show Diag.perf_fail_hint ∈
      (cpu_loop w mask sw_event (List.range w.num_cpus.toNat)
        ⟨List.replicate w.num_cpus.toNat (-1), List.replicate w.num_cpus.toNat false,
          [], [], [], 0⟩).diags
    rw [hstep, hfin]
    show Diag.perf_fail_hint ∈ st2.diags ++ [perf_diag sw_event (w.perf_errno c)]
    rw [hdiag2]
    simp [perf_diag, hsw, henno]
  · have hat : w.attach_ok c = false := hfail.resolve_left hpf
    have hfin : cpu_loop w mask sw_event (c :: post) st2
        = ⟨st2.pefds.set c (w.perf_open c), st2.links, st2.opened ++ [c], st2.attached,
            st2.diags, -1⟩ :=
      cpu_loop_cons_attach_fail w mask sw_event c post st2 honl hpf hat
    have herrF : (cpu_loop w mask sw_event (List.range w.num_cpus.toNat)
        ⟨List.replicate w.num_cpus.toNat (-1), List.replicate w.num_cpus.toNat false,
          [], [], [], 0⟩).err = -1 := by
      rw [hstep, hfin]
    have hrun : main_run opts w = Option.some
        ⟨1,
          (cpu_loop w mask sw_event (List.range w.num_cpus.toNat)
            ⟨List.replicate w.num_cpus.toNat (-1), List.replicate w.num_cpus.toNat false,
              [], [], [], 0⟩).diags,
          Option.some (make_attr sw_event freq),
          (cpu_loop w mask sw_event (List.range w.num_cpus.toNat)
            ⟨List.replicate w.num_cpus.toNat (-1), List.replicate w.num_cpus.toNat false,
              [], [], [], 0⟩).opened,
          (cpu_loop w mask sw_event (List.range w.num_cpus.toNat)
            ⟨List.replicate w.num_cpus.toNat (-1), List.replicate w.num_cpus.toNat false,
              [], [], [], 0⟩).attached,
          cleanup_closed w.num_cpus.toNat
            (cpu_loop w mask sw_event (List.range w.num_cpus.toNat)
              ⟨List.replicate w.num_cpus.toNat (-1), List.replicate w.num_cpus.toNat false,
                [], [], [], 0⟩).pefds,
          cleanup_destroyed w.num_cpus.toNat
            (cpu_loop w mask sw_event (List.range w.num_cpus.toNat)
              ⟨List.replicate w.num_cpus.toNat (-1), List.replicate w.num_cpus.toNat false,
                [], [], [], 0⟩).links,
          false⟩ := by
      simp [main_run, hms, herrF]
    refine ⟨_, hrun, rfl, rfl, hcl, hds, ?_⟩
    intro hpf2 _ _
    exact absurd hpf2 hpf

theorem c6_unit_failure_fatal_witness :
    ∃ res : MainResult, main_run [] enoentWorld = Option.some res ∧
      res.exit_code = 1 ∧ res.reached_loop = false ∧
      (∀ i, i ∈ res.closed ↔ i ∈ res.opened) ∧
      (∀ i, i ∈ res.destroyed ↔ i ∈ res.attached) ∧
      (enoentWorld.perf_open 0 < 0 → false = false → enoentWorld.perf_errno 0 = ENOENT →
        Diag.perf_fail_hint ∈ res.diags) :=
  c6_unit_failure_fatal [] enoentWorld 1 false [true] [] [] 0
    rfl rfl (by decide) rfl rfl rfl (by decide) (by simp) (by decide)
    (Or.inl (by decide))

/-- A failure before the setup loop always carries a nonzero error code:
`parse_cpu_mask_file` reports nonzero on failure (well-formed world) and
every other pre-loop failure sets `err = -1`. -/
theorem main_setup_preFail_err (opts : List CliOpt) (w : World) (d : List Diag) (e : Int)
    (hwf : World.wf w) (h : main_setup opts w = SetupRes.preFail d e) : e ≠ 0 := by
  unfold main_setup at h
  cases hgl : getopt_loop opts 1 false with
  | none =>
    simp only [hgl] at h
    cases h
  | some p =>
    obtain ⟨freq, sw⟩ := p
    simp only [hgl] at h
    cases hcm : w.cpu_mask with
    | error e0 =>
      simp only [hcm] at h
      injection h with h1 h2
      subst h2
      exact hwf e0 hcm
    | ok mask =>
      simp only [hcm] at h
      split at h
      · injection h with h1 h2
        omega
      · split at h
        · injection h with h1 h2
          omega
        · split at h
          · injection h with h1 h2
            omega
          · split at h
            · injection h with h1 h2
              omega
            · cases h

/-- C1 counterexample: in a run where the whole startup succeeds and the
blocking ring-buffer wait then reports the unrecoverable error `-5`
(`okWorld.polls = [-5]`, so the poll loop exits on a failure, not a clean
shutdown), `main` still returns `-err` with `err` untouched at 0 — the
exit status is 0, where the claim demands a non-zero status for a fatal
runtime failure of the wait. -/
theorem c1_counterexample :
    okWorld.polls = [-5] ∧ poll_exits okWorld.polls = true ∧
      Option.map MainResult.exit_code (main_run [] okWorld) = Option.some 0 :=
  ⟨rfl, rfl, by decide⟩

/-- C1 (amended): the exit status of `main` is 0 exactly when the process
reached the event loop (all setup succeeded) — including the case where
the ring-buffer wait itself reports an unrecoverable error, which exits
the loop with `err` still 0; any fatal setup failure, and the usage path,
exit with a nonzero status (the negated internal error code, or 1 for the
usage path). -/
theorem c1_exit_status (opts : List CliOpt) (w : World) (res : MainResult)
    (hwf : World.wf w) (h : main_run opts w = Option.some res) :
    res.exit_code = 0 ↔ res.reached_loop = true := by
  unfold main_run at h
  cases hms : main_setup opts w with
  | helpExit =>
    simp only [hms] at h
    injection h with h1
    subst h1
    decide
  | preFail d e =>
    have he := main_setup_preFail_err opts w d e hwf hms
    simp only [hms] at h
    injection h with h1
    subst h1
    simp [Int.neg_eq_zero, he]
  | ran out =>
    simp only [hms] at h
    by_cases hok : out.st.err = 0
    · rw [if_pos hok] at h
      cases hpe : poll_exits w.polls with
      | false =>
        rw [hpe, if_neg (by decide)] at h
        cases h
      | true =>
        rw [hpe, if_pos rfl] at h
        injection h with h1
        subst h1
        simp [hok]
    · rw [if_neg hok] at h
      injection h with h1
      subst h1
      simp [Int.neg_eq_zero, hok]

theorem c1_exit_status_witness :
    World.wf okWorld ∧
      ((⟨0, [], Option.some ⟨0, 0, 1, 1⟩, [0], [0], [0], [0], true⟩ : MainResult).exit_code = 0 ↔
        (⟨0, [], Option.some ⟨0, 0, 1, 1⟩, [0], [0], [0], [0], true⟩ :
          MainResult).reached_loop = true) :=
  ⟨fun e he => by simp [okWorld] at he,
    c1_exit_status [] okWorld ⟨0, [], Option.some ⟨0, 0, 1, 1⟩, [0], [0], [0], [0], true⟩
      (fun e he => by simp [okWorld] at he) (by decide)⟩
